import Mathlib

/-!
Shallow embedding of the Venue Refresh & Geo-Cache subsystem of cs-server
(Go), covering the data model (models/), the Redis venue DAO
(dao/redis/redis_venue_dao.go), the geo Redis client (db/geo_redis_client.go),
the refresh orchestrator (service/venues_refresher_service.go) and the serving
handler merge/sort step (server/handlers, mergeLive).

Modelling conventions:
- float64 coordinates and ratings are carried opaquely by the embedded
  operations (stored and copied, never computed on), so they are modelled as
  integers with decidable equality.
- JSON (de)serialization via encoding/json is modelled symbolically: a stored
  blob remembers the value it encodes; decoding a blob at the wrong type, or a
  corrupt blob, fails, mirroring json.Unmarshal errors.
- Redis string keys and the geospatial index are modelled as association
  lists; SET/GEOADD replace the entry for an existing key in place and append
  a fresh entry otherwise, matching the last-write-wins key semantics.
- Network calls to the BestTime provider are modelled by response functions:
  each call either fails with a transport error or returns a response, and
  poll-progress may answer differently on successive attempts, so it also
  receives the 0-based attempt index.
-/

namespace CsServer

/-- models/venue/day_info.go: DayInfo summary block of a forecast day. -/
structure DayInfo where
  dayInt : Int
  dayMax : Int
  dayMean : Int
  dayRankMax : Int
  dayRankMean : Int
  dayText : String
  venueOpen : String
  venueClosed : String
deriving Repr, DecidableEq, Inhabited

/-- models/venue/foot_traffic_forecast.go: forecast data for a specific day. -/
structure FootTrafficForecast where
  dayInfo : Option DayInfo
  dayInt : Int
  dayRaw : List Int
deriving Repr, DecidableEq, Inhabited

/-- models/venue/venue.go: a venue with identity, location and forecast data. -/
structure Venue where
  forecast : Bool
  processed : Bool
  venueAddress : String
  venueLat : Int
  venueLon : Int
  venueName : String
  venueID : String
  venueFootTrafficForecast : Option (List FootTrafficForecast)
deriving Repr, DecidableEq, Inhabited

/-- models/live_forecast/analysis.go: busyness numbers and availability flags. -/
structure Analysis where
  venueForecastedBusyness : Int
  venueLiveBusyness : Int
  venueLiveBusynessAvailable : Bool
  venueForecastBusynessAvailable : Bool
  venueLiveForecastedDelta : Int
deriving Repr, DecidableEq, Inhabited

/-- models/live_forecast: VenueInfo metadata echoed by the provider. -/
structure VenueInfo where
  venueCurrentGMTTime : String
  venueCurrentLocalTime : String
  venueID : String
  venueName : String
  venueTimezone : String
  venueDwellTimeMin : Int
  venueDwellTimeMax : Int
  venueDwellTimeAvg : Int
deriving Repr, DecidableEq, Inhabited

/-- models/live_forecast/live_forecast.go: top level of POST /forecasts/live. -/
structure LiveForecastResponse where
  analysis : Analysis
  status : String
  venueInfo : VenueInfo
deriving Repr, DecidableEq, Inhabited

/-- models/week_raw.go: WeekRawDay, one element of the week_raw array. -/
structure WeekRawDay where
  dayRaw : List Int
  dayInt : Int
  dayInfo : Option DayInfo
deriving Repr, DecidableEq, Inhabited

/-- models/search_progress_response.go: provider-reported state of a search
job; the venues list is populated once jobFinished is true. -/
structure SearchProgressResponse where
  countTotal : Int
  countCompleted : Int
  countForecast : Int
  countLive : Int
  countFailed : Int
  jobFinished : Bool
  collectionID : String
  jobID : String
  status : String
  venues : List Venue
  venuesN : Int
deriving Repr, DecidableEq, Inhabited

/-- service/venues_refresher_service.go: jobHandle ties a kicked-off search to
its job and collection IDs. -/
structure jobHandle where
  jobID : String
  collectionID : String
deriving Repr, DecidableEq, Inhabited

/-- models/venue_filter_response.go: BestTime /venues/filter response; only
the fields read by RefreshVenuesDataByVenuesFilter are carried. -/
structure VenueFilterResponse where
  status : String
  venues : List Venue
  venuesN : Int
deriving Repr, DecidableEq, Inhabited

/-- Symbolic serialized payload: a blob remembers the encoded value; decoding
at the wrong type, or a corrupt blob, fails like json.Unmarshal. -/
inductive Blob where
  | venueBlob (v : Venue)
  | liveBlob (f : LiveForecastResponse)
  | weekDayBlob (d : WeekRawDay)
  | corrupt (s : String)
deriving Repr, DecidableEq, Inhabited

/-- json.Unmarshal of a stored payload into venue.Venue. -/
def decodeVenue : Blob → Option Venue
  | Blob.venueBlob v => some v
  | _ => none

/-- json.Unmarshal of a stored payload into LiveForecastResponse. -/
def decodeLive : Blob → Option LiveForecastResponse
  | Blob.liveBlob f => some f
  | _ => none

/-- json.Unmarshal of a stored payload into WeekRawDay. -/
def decodeWeekDay : Blob → Option WeekRawDay
  | Blob.weekDayBlob d => some d
  | _ => none

/-- Redis string keyspace: association list from key to stored blob. -/
abbrev KV := List (String × Blob)

/-- Redis SET: replace the entry for an existing key in place, else append. -/
def kvSet : KV → String → Blob → KV
  | [], k, v => [(k, v)]
  | (k', v') :: st, k, v =>
    if k' = k then (k, v) :: st else (k', v') :: kvSet st k v

/-- Redis GET: first entry for the key, if any (missing key is redis.Nil). -/
def kvGet : KV → String → Option Blob
  | [], _ => none
  | (k', v') :: st, k => if k' = k then some v' else kvGet st k

/-- Redis DEL: remove the entries for the key. -/
def kvDel (st : KV) (k : String) : KV :=
  st.filter (fun p => p.1 ≠ k)

/-- Geospatial index venues_geo_v1: association list from member name to its
(lat, lon) coordinates. -/
abbrev GeoIndex := List (String × (Int × Int))

/-- Redis GEOADD: update an existing member's coordinates in place, else
append the member. -/
def geoAdd : GeoIndex → String → Int → Int → GeoIndex
  | [], m, la, lo => [(m, (la, lo))]
  | (m', c) :: g, m, la, lo =>
    if m' = m then (m, (la, lo)) :: g else (m', c) :: geoAdd g m la lo

/-- State of the Redis instance as used by this subsystem: the venues_geo_v1
geospatial index (the only geo key the code ever passes to
AddLocationWithJSON / GeoRadius) and the string keyspace. -/
structure Store where
  geo : GeoIndex
  kv : KV
deriving Repr, DecidableEq, Inhabited

/-- dao/redis/redis_venue_dao.go: VENUES_GEO_PLACE_MEMBER_FORMAT_V1 applied
to a venue ID. -/
def venuesGeoPlaceMemberKey (venueID : String) : String :=
  "venues_geo_place_v1:" ++ venueID

/-- dao/redis/redis_venue_dao.go: LIVE_FORECAST_KEY_FORMAT applied to a venue
ID. -/
def liveForecastKey (venueID : String) : String :=
  "live_forecast_v1:" ++ venueID

/-- dao/redis/redis_venue_dao.go: WEEKLY_FORECAST_KEY_FORMAT applied to a
venue ID and day number. -/
def weeklyForecastKey (venueID : String) (dayInt : Int) : String :=
  "weekly_forecast_v1:" ++ venueID ++ "_" ++ toString dayInt

/-- db/geo_redis_client.go AddLocationWithJSON: GEOADD the member at
(lat, lon) into venues_geo_v1, then SET the serialized payload under the
member key. -/
def AddLocationWithJSON (st : Store) (memberKey : String) (lat lon : Int)
    (data : Blob) : Store :=
  { geo := geoAdd st.geo memberKey lat lon
    kv := kvSet st.kv memberKey data }

/-- dao UpsertVenue: store the venue as a geolocation member keyed by its
venue ID together with the venue's JSON payload. -/
def UpsertVenue (st : Store) (v : Venue) : Store :=
  AddLocationWithJSON st (venuesGeoPlaceMemberKey v.venueID) v.venueLat
    v.venueLon (Blob.venueBlob v)

/-- Members of the geo index whose stored coordinates satisfy the in-radius
predicate, in index order: the GEORADIUS reply. The geodesic distance
computation is internal to Redis, so it is abstracted as a predicate on the
stored coordinates. -/
def membersInRadius (st : Store) (inRadius : Int × Int → Bool) : List String :=
  (st.geo.filter (fun p => inRadius p.2)).map Prod.fst

/-- db/geo_redis_client.go GetLocationsWithinRadius: GEORADIUS, then for each
returned member GET its payload; a member whose GET fails is logged and
skipped, the rest are returned in order. -/
def GetLocationsWithinRadius (st : Store) (inRadius : Int × Int → Bool) :
    List Blob :=
  (membersInRadius st inRadius).filterMap (fun m => kvGet st.kv m)

/-- Unmarshal loop of dao GetNearbyVenues: deserialize every payload; the
first payload that fails to unmarshal fails the whole call. -/
def unmarshalVenues : List Blob → Except String (List Venue)
  | [] => Except.ok []
  | b :: bs =>
    match decodeVenue b with
    | none => Except.error "failed to unmarshal venue JSON"
    | some v =>
      match unmarshalVenues bs with
      | Except.error e => Except.error e
      | Except.ok vs => Except.ok (v :: vs)

/-- dao GetNearbyVenues: fetch the in-radius payloads and deserialize each
one, failing the whole call on any unmarshal error. -/
def GetNearbyVenues (st : Store) (inRadius : Int × Int → Bool) :
    Except String (List Venue) :=
  unmarshalVenues (GetLocationsWithinRadius st inRadius)

/-- dao SetLiveForecast: cache the live forecast under the key derived from
the venue ID embedded in the response (f.VenueInfo.VenueID). -/
def SetLiveForecast (st : Store) (f : LiveForecastResponse) : Store :=
  { st with kv := kvSet st.kv (liveForecastKey f.venueInfo.venueID) (Blob.liveBlob f) }

/-- dao GetLiveForecast: GET then unmarshal; a missing key surfaces as the
redis.Nil error of client.Get, a wrong-type payload as an unmarshal error. -/
def GetLiveForecast (st : Store) (venueID : String) :
    Except String LiveForecastResponse :=
  match kvGet st.kv (liveForecastKey venueID) with
  | none => Except.error "redis: nil"
  | some b =>
    match decodeLive b with
    | none => Except.error "failed to unmarshal live forecast JSON"
    | some f => Except.ok f

/-- dao DeleteLiveForecast: DEL the live-forecast key for the venue ID. -/
def DeleteLiveForecast (st : Store) (venueID : String) : Store :=
  { st with kv := kvDel st.kv (liveForecastKey venueID) }

/-- dao SetWeekRawForecast: cache one day's raw weekly forecast under the
weekly key for (venueID, day.DayInt). -/
def SetWeekRawForecast (st : Store) (venueID : String) (day : WeekRawDay) :
    Store :=
  { st with kv := kvSet st.kv (weeklyForecastKey venueID day.dayInt) (Blob.weekDayBlob day) }

/-- Substring test, modelling strings.Contains. -/
def strContains (s pat : String) : Bool :=
  decide (List.IsInfix pat.toList s.toList)

/-- Outcome of client.Get as seen by the DAO: a payload, or an error whose
message the DAO can inspect (go-redis reports a missing key as the redis.Nil
error, whose message contains "nil"). -/
def clientGet (st : Store) (k : String) : Except String Blob :=
  match kvGet st.kv k with
  | some b => Except.ok b
  | none => Except.error "redis: nil"

/-- dao GetWeekRawForecast given the outcome of client.Get on the weekly key:
an error whose message contains "nil" is treated as a cache miss and returns
(nil, nil); any other Get error propagates; a fetched payload is unmarshalled,
failing on a wrong-type payload. -/
def getWeekRawForecastOfGet (get : Except String Blob) :
    Except String (Option WeekRawDay) :=
  match get with
  | Except.error e =>
    if strContains e "nil" then Except.ok none
    else Except.error ("failed to get weekly raw forecast from redis: " ++ e)
  | Except.ok b =>
    match decodeWeekDay b with
    | none => Except.error "failed to unmarshal weekly raw forecast JSON"
    | some d => Except.ok (some d)

/-- dao GetWeekRawForecast against the modelled store. -/
def GetWeekRawForecast (st : Store) (venueID : String) (dayInt : Int) :
    Except String (Option WeekRawDay) :=
  getWeekRawForecastOfGet (clientGet st (weeklyForecastKey venueID dayInt))

/-- api/besttime: the slice of the BestTimeAPI interface driven by the
refresher. Responses are modelled as functions of the call arguments;
GetVenueSearchProgress also receives the 0-based poll attempt index, since the
provider may answer each poll differently. -/
structure BestTimeModel where
  searchProgress : jobHandle → Nat → Except String SearchProgressResponse
  liveForecast : String → Except String LiveForecastResponse
  venueFilter : Except String VenueFilterResponse

/-- config: BEST_TIME_SEARCH_POLLING_WAIT_SECONDS. -/
def BEST_TIME_SEARCH_POLLING_WAIT_SECONDS : Nat := 15

/-- service waitBeforePolling: seconds slept before the next poll, the
configured interval scaled by the attempt number. -/
def waitBeforePolling (attemptNumber : Nat) : Nat :=
  BEST_TIME_SEARCH_POLLING_WAIT_SECONDS * attemptNumber

/-- service processJobHandles: maxRetries. -/
def maxRetries : Nat := 5

/-- Observable event of the per-handle poll loop: a GetVenueSearchProgress
call (with its 1-based attempt number) or a waitBeforePolling sleep (with its
duration in seconds). -/
inductive PollEvent where
  | pollCall (attempt : Nat)
  | sleep (seconds : Nat)
deriving Repr, DecidableEq

/-- Poll loop of processJobHandles, from 0-based attempt index i with rem loop
iterations left: each iteration calls GetVenueSearchProgress; a transport
error breaks out of the loop at once; a finished response breaks out with the
response; an unfinished response sleeps waitBeforePolling (i+1) and retries.
Returns the finished response (none when the handle must be skipped) paired
with the trace of poll calls and sleeps. -/
def pollFrom (poll : Nat → Except String SearchProgressResponse) :
    Nat → Nat → Option SearchProgressResponse × List PollEvent
  | _, 0 => (none, [])
  | i, rem + 1 =>
    match poll i with
    | Except.error _ => (none, [PollEvent.pollCall (i + 1)])
    | Except.ok resp =>
      if resp.jobFinished then (some resp, [PollEvent.pollCall (i + 1)])
      else
        let next := pollFrom poll (i + 1) rem
        (next.1, PollEvent.pollCall (i + 1) ::
          PollEvent.sleep (waitBeforePolling (i + 1)) :: next.2)

/-- Poll-to-completion for one handle: up to maxRetries attempts starting at
attempt index 0. -/
def pollHandle (poll : Nat → Except String SearchProgressResponse) :
    Option SearchProgressResponse × List PollEvent :=
  pollFrom poll 0 maxRetries

/-- Attempt numbers of the GetVenueSearchProgress calls in a poll trace. -/
def pollAttempts (tr : List PollEvent) : List Nat :=
  tr.filterMap (fun e =>
    match e with
    | PollEvent.pollCall k => some k
    | PollEvent.sleep _ => none)

/-- Sleep durations (seconds) in a poll trace, in order. -/
def sleepSeconds (tr : List PollEvent) : List Nat :=
  tr.filterMap (fun e =>
    match e with
    | PollEvent.pollCall _ => none
    | PollEvent.sleep s => some s)

/-- Mutable state threaded through the dedup-and-upsert loops of
processJobHandles and RefreshVenuesDataByVenuesFilter: the seen-ID and
seen-name sets, the unique-ID output list, the venues upserted so far (in
upsert order) and the store. -/
structure RunState where
  seenIDs : List String
  seenNames : List String
  uniqueIDs : List String
  upserted : List Venue
  store : Store
deriving Repr, DecidableEq

/-- Initial RunState over a store: empty seen sets and outputs. -/
def initialRunState (st : Store) : RunState :=
  { seenIDs := [], seenNames := [], uniqueIDs := [], upserted := [], store := st }

/-- Venue loop body of processJobHandles over one finished job's venue list:
skip a venue whose ID was already seen, else skip it when its name was already
seen, else mark ID and name seen, append the ID to the unique-ID list and
upsert the venue. -/
def processVenues (s : RunState) : List Venue → RunState
  | [] => s
  | v :: vs =>
    if v.venueID ∈ s.seenIDs then processVenues s vs
    else if v.venueName ∈ s.seenNames then processVenues s vs
    else
      processVenues
        { seenIDs := v.venueID :: s.seenIDs
          seenNames := v.venueName :: s.seenNames
          uniqueIDs := s.uniqueIDs ++ [v.venueID]
          upserted := s.upserted ++ [v]
          store := UpsertVenue s.store v } vs

/-- Handle loop body of processJobHandles: poll the handle to completion and
either skip it (transport error, or still unfinished after maxRetries) or run
the dedup-and-upsert loop over the finished job's venues. -/
def handleStep (api : BestTimeModel) (s : RunState) (h : jobHandle) : RunState :=
  match (pollHandle (api.searchProgress h)).1 with
  | none => s
  | some resp => processVenues s resp.venues

/-- service processJobHandles: poll each handle to completion, skip handles
that errored or never finished, and run the shared dedup-and-upsert loop over
the finished jobs' venues in handle order. -/
def processJobHandles (api : BestTimeModel) (st : Store)
    (handles : List jobHandle) : RunState :=
  handles.foldl (handleStep api) (initialRunState st)

/-- Loop body of fetchAndCacheLiveForecasts for one venue ID: fetch the live
forecast; a transport error skips the ID; a response with status other than
"OK" or without live busyness available deletes the cached entry for the ID;
otherwise the response is cached under its embedded venue ID. -/
def liveFetchStep (api : BestTimeModel) (acc : Store) (vid : String) : Store :=
  match api.liveForecast vid with
  | Except.error _ => acc
  | Except.ok lf =>
    if lf.status ≠ "OK" ∨ lf.analysis.venueLiveBusynessAvailable = false then
      DeleteLiveForecast acc vid
    else
      SetLiveForecast acc lf

/-- service fetchAndCacheLiveForecasts: run liveFetchStep over the IDs. -/
def fetchAndCacheLiveForecasts (api : BestTimeModel) (st : Store)
    (ids : List String) : Store :=
  ids.foldl (liveFetchStep api) st

/-- service RefreshVenuesData over the handles produced by collectJobHandles
(the kick-off network calls are the provider's concern): zero handles ends the
run with no error; otherwise poll-dedup-upsert, then fetch and cache live
forecasts for the unique IDs. The returned error is always none. -/
def RefreshVenuesData (api : BestTimeModel) (st : Store)
    (handles : List jobHandle) : Option String × Store :=
  if handles.length = 0 then (none, st)
  else
    let s := processJobHandles api st handles
    (none, fetchAndCacheLiveForecasts api s.store s.uniqueIDs)

/-- service RefreshCachedLiveForecasts: refresh the live forecasts of the
venue IDs scanned from the live-forecast key prefix. -/
def RefreshCachedLiveForecasts (api : BestTimeModel) (st : Store)
    (ids : List String) : Store :=
  fetchAndCacheLiveForecasts api st ids

/-- service mapVenueFilterVenueToVenue: convert a /venues/filter venue into
the persisted venue shape. -/
def mapVenueFilterVenueToVenue (vf : Venue) : Venue :=
  { forecast := true
    processed := true
    venueAddress := vf.venueAddress
    venueLat := vf.venueLat
    venueLon := vf.venueLon
    venueName := vf.venueName
    venueID := vf.venueID
    venueFootTrafficForecast := none }

/-- Venue loop body of RefreshVenuesDataByVenuesFilter: skip a record with
neither ID nor name; skip a record whose non-empty ID was already seen, else
one whose non-empty name was already seen; otherwise convert and upsert it,
then mark the non-empty ID seen (appending it to the unique-ID list) and the
non-empty name seen. -/
def filterVenuesLoop (s : RunState) : List Venue → RunState
  | [] => s
  | vf :: vs =>
    if vf.venueID = "" ∧ vf.venueName = "" then filterVenuesLoop s vs
    else if vf.venueID ≠ "" ∧ vf.venueID ∈ s.seenIDs then
      filterVenuesLoop s vs
    else if vf.venueName ≠ "" ∧ vf.venueName ∈ s.seenNames then
      filterVenuesLoop s vs
    else
      let v := mapVenueFilterVenueToVenue vf
      filterVenuesLoop
        { seenIDs := if v.venueID ≠ "" then v.venueID :: s.seenIDs else s.seenIDs
          seenNames := if v.venueName ≠ "" then v.venueName :: s.seenNames else s.seenNames
          uniqueIDs := if v.venueID ≠ "" then s.uniqueIDs ++ [v.venueID] else s.uniqueIDs
          upserted := s.upserted ++ [v]
          store := UpsertVenue s.store v } vs

/-- service RefreshVenuesDataByVenuesFilter: a transport error propagates; a
non-OK status stops gracefully with no IDs; otherwise the filtered venue list
goes through the ID-then-name dedup loop and the unique IDs are returned
(the optional live-forecast fetch is step RefreshVenuesData also runs and is
exercised separately through fetchAndCacheLiveForecasts). -/
def RefreshVenuesDataByVenuesFilter (api : BestTimeModel) (st : Store) :
    Except String (List String) × Store :=
  match api.venueFilter with
  | Except.error e => (Except.error e, st)
  | Except.ok resp =>
    if resp.status ≠ "OK" then (Except.ok [], st)
    else
      let s := filterVenuesLoop (initialRunState st) resp.venues
      (Except.ok s.uniqueIDs, s.store)

/-- server/handlers: VenueWithLive pairs a venue with its cached live
forecast; Live is none when the venue has no cached live entry. -/
structure VenueWithLive where
  venue : Venue
  live : Option LiveForecastResponse
deriving Repr, DecidableEq

/-- Comparator of the sort.SliceStable call in mergeLive: a venue with live
data sorts before one without; two venues with live data compare by live
busyness, descending. -/
def liveLess (a b : VenueWithLive) : Bool :=
  match a.live, b.live with
  | some _, none => true
  | none, some _ => false
  | none, none => false
  | some la, some lb =>
    lb.analysis.venueLiveBusyness < la.analysis.venueLiveBusyness

/-- Insertion step of a stable sort: the new element moves past exactly the
earlier elements that are strictly less than it, so equal elements keep their
original order. -/
def stableInsert (less : α → α → Bool) (a : α) : List α → List α
  | [] => [a]
  | b :: l => if less b a then b :: stableInsert less a l else a :: b :: l

/-- Go's sort.SliceStable: stable sort by the given less comparator, modelled
as stable insertion sort. -/
def sliceStable (less : α → α → Bool) : List α → List α
  | [] => []
  | a :: l => stableInsert less a (sliceStable less l)

/-- Per-venue step of mergeLive: pair a venue with its cached live forecast,
keeping the venue with live = none when the cache lookup fails. -/
def pairWithLive (st : Store) (v : Venue) : VenueWithLive :=
  match GetLiveForecast st v.venueID with
  | Except.error _ => { venue := v, live := none }
  | Except.ok lf => { venue := v, live := some lf }

/-- server/handlers venue_handler mergeLive: pair every nearby venue with its
cached live forecast (none when the cache lookup fails), keeping input order,
then sort with sort.SliceStable under liveLess. -/
def mergeLive (st : Store) (venues : List Venue) : List VenueWithLive :=
  sliceStable liveLess (venues.map (pairWithLive st))

/-- Coordinates currently indexed for a member of the geo index. -/
def geoLookup : GeoIndex → String → Option (Int × Int)
  | [], _ => none
  | (m', c) :: g, m => if m' = m then some c else geoLookup g m

/-! Association-list lemmas about the modelled Redis primitives. -/

theorem kvGet_kvSet_self (st : KV) (k : String) (v : Blob) :
    kvGet (kvSet st k v) k = some v := by
  induction st with
  | nil => simp [kvSet, kvGet]
  | cons p st ih =>
    obtain ⟨k1, v1⟩ := p
    by_cases h : k1 = k
    · simp [kvSet, h, kvGet]
    · simp [kvSet, h, kvGet, ih]

theorem kvGet_kvSet_ne (st : KV) (k k2 : String) (v : Blob) (h : k2 ≠ k) :
    kvGet (kvSet st k v) k2 = kvGet st k2 := by
  induction st with
  | nil => simp [kvSet, kvGet, Ne.symm h]
  | cons p st ih =>
    obtain ⟨k1, v1⟩ := p
    by_cases hk : k1 = k
    · subst hk
      simp [kvSet, kvGet, Ne.symm h]
    · simp [kvSet, hk, kvGet, ih]

theorem kvSet_kvSet_same (st : KV) (k : String) (v : Blob) :
    kvSet (kvSet st k v) k v = kvSet st k v := by
  induction st with
  | nil => simp [kvSet]
  | cons p st ih =>
    obtain ⟨k1, v1⟩ := p
    by_cases h : k1 = k
    · simp [kvSet, h]
    · simp [kvSet, h, ih]

theorem kvGet_kvDel_self (st : KV) (k : String) :
    kvGet (kvDel st k) k = none := by
  induction st with
  | nil => simp [kvDel, kvGet]
  | cons p st ih =>
    obtain ⟨k1, v1⟩ := p
    by_cases h : k1 = k
    · simpa [kvDel, List.filter_cons, h, kvGet] using ih
    · simpa [kvDel, List.filter_cons, h, kvGet] using ih

theorem kvGet_kvDel_ne (st : KV) (k k2 : String) (h : k2 ≠ k) :
    kvGet (kvDel st k) k2 = kvGet st k2 := by
  induction st with
  | nil => simp [kvDel, kvGet]
  | cons p st ih =>
    obtain ⟨k1, v1⟩ := p
    by_cases hk : k1 = k
    · subst hk
      simpa [kvDel, List.filter_cons, kvGet, Ne.symm h] using ih
    · by_cases hk2 : k1 = k2
      · simp [kvDel, List.filter_cons, hk, kvGet, hk2, h]
      · simpa [kvDel, List.filter_cons, hk, kvGet, hk2] using ih

theorem geoLookup_geoAdd_self (g : GeoIndex) (m : String) (la lo : Int) :
    geoLookup (geoAdd g m la lo) m = some (la, lo) := by
  induction g with
  | nil => simp [geoAdd, geoLookup]
  | cons p g ih =>
    obtain ⟨m1, c1⟩ := p
    by_cases h : m1 = m
    · simp [geoAdd, h, geoLookup]
    · simp [geoAdd, h, geoLookup, ih]

theorem geoAdd_geoAdd_same (g : GeoIndex) (m : String) (la lo : Int) :
    geoAdd (geoAdd g m la lo) m la lo = geoAdd g m la lo := by
  induction g with
  | nil => simp [geoAdd]
  | cons p g ih =>
    obtain ⟨m1, c1⟩ := p
    by_cases h : m1 = m
    · simp [geoAdd, h]
    · simp [geoAdd, h, ih]

theorem kvSet_count_one (st : KV) (k : String) (v : Blob)
    (hnd : (st.map Prod.fst).Nodup) :
    ((kvSet st k v).map Prod.fst).count k = 1 := by
  induction st with
  | nil => simp [kvSet]
  | cons p st ih =>
    obtain ⟨k1, v1⟩ := p
    simp only [List.map_cons, List.nodup_cons] at hnd
    by_cases h : k1 = k
    · subst h
      have hz : (st.map Prod.fst).count k1 = 0 := List.count_eq_zero.mpr hnd.1
      simp [kvSet, List.count_cons, hz]
    · simp [kvSet, h, List.count_cons, ih hnd.2, Ne.symm h]

theorem geoAdd_count_one (g : GeoIndex) (m : String) (la lo : Int)
    (hnd : (g.map Prod.fst).Nodup) :
    ((geoAdd g m la lo).map Prod.fst).count m = 1 := by
  induction g with
  | nil => simp [geoAdd]
  | cons p g ih =>
    obtain ⟨m1, c1⟩ := p
    simp only [List.map_cons, List.nodup_cons] at hnd
    by_cases h : m1 = m
    · subst h
      have hz : (g.map Prod.fst).count m1 = 0 := List.count_eq_zero.mpr hnd.1
      simp [geoAdd, List.count_cons, hz]
    · simp [geoAdd, h, List.count_cons, ih hnd.2, Ne.symm h]

/-- C8: Upsert idempotence. Upserting the same venue twice with identical data
leaves the geo index and the payload store in the same observable state as
upserting it once; after an upsert the venue occupies a geo-index member keyed
venues_geo_place_v1:{venue_id} holding its coordinates and a payload blob
under that same key, and when the store keys were duplicate-free the member
and the payload key each occur exactly once. -/
theorem upsertVenue_idempotent (st : Store) (v : Venue)
    (hgeo : (st.geo.map Prod.fst).Nodup) (hkv : (st.kv.map Prod.fst).Nodup) :
    UpsertVenue (UpsertVenue st v) v = UpsertVenue st v ∧
    geoLookup (UpsertVenue st v).geo (venuesGeoPlaceMemberKey v.venueID) =
      some (v.venueLat, v.venueLon) ∧
    kvGet (UpsertVenue st v).kv (venuesGeoPlaceMemberKey v.venueID) =
      some (Blob.venueBlob v) ∧
    ((UpsertVenue st v).geo.map Prod.fst).count (venuesGeoPlaceMemberKey v.venueID) = 1 ∧
    ((UpsertVenue st v).kv.map Prod.fst).count (venuesGeoPlaceMemberKey v.venueID) = 1 := by
  refine ⟨?_, ?_, ?_, ?_, ?_⟩
  · simp [UpsertVenue, AddLocationWithJSON, geoAdd_geoAdd_same, kvSet_kvSet_same]
  · simp [UpsertVenue, AddLocationWithJSON, geoLookup_geoAdd_self]
  · simp [UpsertVenue, AddLocationWithJSON, kvGet_kvSet_self]
  · simpa [UpsertVenue, AddLocationWithJSON] using
      geoAdd_count_one st.geo (venuesGeoPlaceMemberKey v.venueID) v.venueLat v.venueLon hgeo
  · simpa [UpsertVenue, AddLocationWithJSON] using
      kvSet_count_one st.kv (venuesGeoPlaceMemberKey v.venueID) (Blob.venueBlob v) hkv

/-- Witness for upsertVenue_idempotent at a concrete store and venue. -/
theorem upsertVenue_idempotent_witness :
    UpsertVenue (UpsertVenue (Store.mk [] []) default) default =
      UpsertVenue (Store.mk [] []) default :=
  (upsertVenue_idempotent (Store.mk [] []) default (by simp) (by simp)).1

/-- C9: Weekly-forecast cache miss is not an error. A missing weekly key
yields an absent result (nil value, nil error); an error arises only from a
store failure whose message does not contain "nil" (go-redis reports a missing
key as redis.Nil, which does) or from a malformed stored payload; and reading
back a freshly stored day returns that day. -/
theorem getWeekRawForecast_semantics (st : Store) (venueID : String)
    (dayInt : Int) (day : WeekRawDay) :
    (kvGet st.kv (weeklyForecastKey venueID dayInt) = none →
      GetWeekRawForecast st venueID dayInt = Except.ok none) ∧
    (∀ e, GetWeekRawForecast st venueID dayInt = Except.error e →
      ∃ b, kvGet st.kv (weeklyForecastKey venueID dayInt) = some b ∧
        decodeWeekDay b = none) ∧
    (∀ e, strContains e "nil" = false →
      getWeekRawForecastOfGet (Except.error e) =
        Except.error ("failed to get weekly raw forecast from redis: " ++ e)) ∧
    GetWeekRawForecast (SetWeekRawForecast st venueID day) venueID day.dayInt =
      Except.ok (some day) := by
  refine ⟨?_, ?_, ?_, ?_⟩
  · intro hmiss
    have hnil : strContains "redis: nil" "nil" = true := by decide
    simp [GetWeekRawForecast, clientGet, hmiss, getWeekRawForecastOfGet, hnil]
  · intro e herr
    unfold GetWeekRawForecast clientGet at herr
    cases hget : kvGet st.kv (weeklyForecastKey venueID dayInt) with
    | none =>
      have hnil : strContains "redis: nil" "nil" = true := by decide
      rw [hget] at herr
      simp [getWeekRawForecastOfGet, hnil] at herr
    | some b =>
      rw [hget] at herr
      refine ⟨b, rfl, ?_⟩
      cases hdec : decodeWeekDay b with
      | none => rfl
      | some d => simp [getWeekRawForecastOfGet, hdec] at herr
  · intro e he
    simp [getWeekRawForecastOfGet, he]
  · simp [GetWeekRawForecast, SetWeekRawForecast, clientGet, kvGet_kvSet_self,
      getWeekRawForecastOfGet, decodeWeekDay]

/-- Witness for getWeekRawForecast_semantics: an empty store misses, and a
freshly written day reads back. -/
theorem getWeekRawForecast_semantics_witness :
    GetWeekRawForecast (Store.mk [] []) "v1" 3 = Except.ok none ∧
    GetWeekRawForecast (SetWeekRawForecast (Store.mk [] []) "v1"
        (WeekRawDay.mk [5, 6] 3 none)) "v1" 3 = Except.ok (some (WeekRawDay.mk [5, 6] 3 none)) :=
  ⟨(getWeekRawForecast_semantics (Store.mk [] []) "v1" 3 default).1 rfl,
   (getWeekRawForecast_semantics (Store.mk [] []) "v1" 3 (WeekRawDay.mk [5, 6] 3 none)).2.2.2⟩

/-! Lemmas about the unmarshal loop of GetNearbyVenues. -/

theorem unmarshalVenues_error_of_corrupt (bs : List Blob)
    (h : ∃ b ∈ bs, decodeVenue b = none) :
    ∃ e, unmarshalVenues bs = Except.error e := by
  induction bs with
  | nil => simp at h
  | cons b bs ih =>
    rcases h with ⟨b0, hmem, hdec⟩
    rcases List.mem_cons.mp hmem with hb | hb
    · subst hb
      exact ⟨"failed to unmarshal venue JSON", by simp [unmarshalVenues, hdec]⟩
    · cases hd : decodeVenue b with
      | none => exact ⟨"failed to unmarshal venue JSON", by simp [unmarshalVenues, hd]⟩
      | some v =>
        obtain ⟨e, he⟩ := ih ⟨b0, hb, hdec⟩
        exact ⟨e, by simp [unmarshalVenues, hd, he]⟩

theorem unmarshalVenues_ok_of_all (bs : List Blob)
    (h : ∀ b ∈ bs, (decodeVenue b).isSome = true) :
    unmarshalVenues bs = Except.ok (bs.filterMap decodeVenue) ∧
    (bs.filterMap decodeVenue).length = bs.length := by
  induction bs with
  | nil => simp [unmarshalVenues]
  | cons b bs ih =>
    have hb := h b (List.mem_cons_self b bs)
    cases hd : decodeVenue b with
    | none => simp [hd] at hb
    | some v =>
      have ihr := ih (fun b2 hb2 => h b2 (List.mem_cons_of_mem b hb2))
      refine ⟨?_, ?_⟩
      · simp [unmarshalVenues, hd, ihr.1]
      · simp [List.filterMap_cons, hd, ihr.2]

/-- C7: Nearby-query fail-fast on corrupt payload. When any payload found
in-radius fails to deserialize, GetNearbyVenues returns an error (no venue
list); when every payload deserializes, it returns one Venue per payload. -/
theorem getNearbyVenues_failfast (st : Store) (inRadius : Int × Int → Bool) :
    ((∃ b ∈ GetLocationsWithinRadius st inRadius, decodeVenue b = none) →
      ∃ e, GetNearbyVenues st inRadius = Except.error e) ∧
    ((∀ b ∈ GetLocationsWithinRadius st inRadius, (decodeVenue b).isSome = true) →
      GetNearbyVenues st inRadius =
        Except.ok ((GetLocationsWithinRadius st inRadius).filterMap decodeVenue) ∧
      ((GetLocationsWithinRadius st inRadius).filterMap decodeVenue).length =
        (GetLocationsWithinRadius st inRadius).length) := by
  constructor
  · intro h
    exact unmarshalVenues_error_of_corrupt _ h
  · intro h
    exact unmarshalVenues_ok_of_all _ h

/-- Witness for getNearbyVenues_failfast: a store whose only in-radius member
holds a corrupt payload makes the whole call fail, and a store whose payloads
all decode yields one venue per payload. -/
theorem getNearbyVenues_failfast_witness :
    (∃ e, GetNearbyVenues
        (Store.mk [("venues_geo_place_v1:a", (0, 0))]
          [("venues_geo_place_v1:a", Blob.corrupt "x")])
        (fun _ => true) = Except.error e) ∧
    GetNearbyVenues
        (Store.mk [("venues_geo_place_v1:b", (0, 0))]
          [("venues_geo_place_v1:b", Blob.venueBlob default)])
        (fun _ => true) = Except.ok [default] := by
  constructor
  · exact (getNearbyVenues_failfast _ _).1 (by decide)
  · have h := ((getNearbyVenues_failfast
      (Store.mk [("venues_geo_place_v1:b", (0, 0))]
        [("venues_geo_place_v1:b", Blob.venueBlob default)])
      (fun _ => true)).2 (by decide)).1
    simpa using h

theorem length_filterMap_eq_countP (f : α → Option β) (l : List α) :
    (l.filterMap f).length = l.countP (fun a => (f a).isSome) := by
  induction l with
  | nil => simp
  | cons a l ih =>
    cases hf : f a with
    | none => simp [List.filterMap_cons, hf, List.countP_cons, ih]
    | some b => simp [List.filterMap_cons, hf, List.countP_cons, ih]

/-- C10: the radius read silently omits index members with missing payloads.
The number of payloads returned equals the number of in-radius members whose
payload key is present; a member with a missing payload makes the result
strictly shorter than the member list without failing the call; and when all
present payloads decode, getNearbyVenues surfaces the inconsistency as a
silently shorter successful venue list. -/
theorem getLocationsWithinRadius_skips_missing (st : Store)
    (inRadius : Int × Int → Bool) :
    (GetLocationsWithinRadius st inRadius).length =
      (membersInRadius st inRadius).countP (fun m => (kvGet st.kv m).isSome) ∧
    ((∃ m ∈ membersInRadius st inRadius, kvGet st.kv m = none) →
      (GetLocationsWithinRadius st inRadius).length <
        (membersInRadius st inRadius).length) ∧
    ((∀ b ∈ GetLocationsWithinRadius st inRadius, (decodeVenue b).isSome = true) →
      ∃ vs, GetNearbyVenues st inRadius = Except.ok vs ∧
        vs.length =
          (membersInRadius st inRadius).countP (fun m => (kvGet st.kv m).isSome)) := by
  have hlen : (GetLocationsWithinRadius st inRadius).length =
      (membersInRadius st inRadius).countP (fun m => (kvGet st.kv m).isSome) :=
    length_filterMap_eq_countP _ _
  refine ⟨hlen, ?_, ?_⟩
  · rintro ⟨m, hmem, hmiss⟩
    rw [hlen]
    refine lt_of_le_of_ne (List.countP_le_length _) ?_
    intro heq
    have hall := List.countP_eq_length.mp heq m hmem
    simp [hmiss] at hall
  · intro h
    obtain ⟨hok, hl⟩ := unmarshalVenues_ok_of_all _ h
    exact ⟨_, hok, by rw [hl, hlen]⟩

/-- Witness for getLocationsWithinRadius_skips_missing: an index with two
in-radius members, one of them missing its payload blob, yields a one-element
result and a one-venue successful nearby read. -/
theorem getLocationsWithinRadius_skips_missing_witness :
    (GetLocationsWithinRadius
        (Store.mk [("venues_geo_place_v1:a", (0, 0)), ("venues_geo_place_v1:b", (1, 1))]
          [("venues_geo_place_v1:b", Blob.venueBlob default)])
        (fun _ => true)).length <
      (membersInRadius
        (Store.mk [("venues_geo_place_v1:a", (0, 0)), ("venues_geo_place_v1:b", (1, 1))]
          [("venues_geo_place_v1:b", Blob.venueBlob default)])
        (fun _ => true)).length ∧
    (∃ vs, GetNearbyVenues
        (Store.mk [("venues_geo_place_v1:a", (0, 0)), ("venues_geo_place_v1:b", (1, 1))]
          [("venues_geo_place_v1:b", Blob.venueBlob default)])
        (fun _ => true) = Except.ok vs ∧ vs.length = 1) := by
  constructor
  · exact (getLocationsWithinRadius_skips_missing _ _).2.1 (by decide)
  · obtain ⟨vs, hvs, hl⟩ :=
      (getLocationsWithinRadius_skips_missing
        (Store.mk [("venues_geo_place_v1:a", (0, 0)), ("venues_geo_place_v1:b", (1, 1))]
          [("venues_geo_place_v1:b", Blob.venueBlob default)])
        (fun _ => true)).2.2 (by decide)
    exact ⟨vs, hvs, by rw [hl]; decide⟩

/-! Key injectivity and preservation lemmas for the live-forecast cache. -/

theorem string_append_left_cancel (p a b : String) (h : p ++ a = p ++ b) :
    a = b := by
  have hd : (p ++ a).data = (p ++ b).data := congrArg String.data h
  simp only [String.data_append] at hd
  exact String.ext (List.append_cancel_left hd)

theorem liveForecastKey_inj {a b : String} (h : liveForecastKey a = liveForecastKey b) :
    a = b :=
  string_append_left_cancel "live_forecast_v1:" a b h

theorem fetch_preserves_other_key (api : BestTimeModel) (ids : List String)
    (vid : String)
    (hecho : ∀ id2 ∈ ids, ∀ lf2, api.liveForecast id2 = Except.ok lf2 →
      lf2.venueInfo.venueID = id2)
    (hnot : vid ∉ ids) (st : Store) :
    kvGet (fetchAndCacheLiveForecasts api st ids).kv (liveForecastKey vid) =
      kvGet st.kv (liveForecastKey vid) := by
  induction ids generalizing st with
  | nil => rfl
  | cons id0 rest ih =>
    have hne : vid ≠ id0 := fun hv => hnot (hv ▸ List.mem_cons_self id0 rest)
    have hkeyne : liveForecastKey vid ≠ liveForecastKey id0 :=
      fun hk => hne (liveForecastKey_inj hk)
    have hrest : vid ∉ rest := fun hv => hnot (List.mem_cons_of_mem id0 hv)
    have hecho' : ∀ id2 ∈ rest, ∀ lf2, api.liveForecast id2 = Except.ok lf2 →
        lf2.venueInfo.venueID = id2 :=
      fun id2 h2 => hecho id2 (List.mem_cons_of_mem id0 h2)
    show kvGet (fetchAndCacheLiveForecasts api (liveFetchStep api st id0) rest).kv _ = _
    cases hfetch : api.liveForecast id0 with
    | error e =>
      rw [show liveFetchStep api st id0 = st by simp [liveFetchStep, hfetch]]
      exact ih hecho' hrest st
    | ok lf =>
      have hid : lf.venueInfo.venueID = id0 :=
        hecho id0 (List.mem_cons_self id0 rest) lf hfetch
      by_cases hcond : lf.status ≠ "OK" ∨ lf.analysis.venueLiveBusynessAvailable = false
      · rw [show liveFetchStep api st id0 = DeleteLiveForecast st id0 by
          simp [liveFetchStep, hfetch, hcond]]
        rw [ih hecho' hrest (DeleteLiveForecast st id0)]
        exact kvGet_kvDel_ne st.kv (liveForecastKey id0) (liveForecastKey vid) hkeyne
      · rw [show liveFetchStep api st id0 = SetLiveForecast st lf by
          simp [liveFetchStep, hfetch, hcond]]
        rw [ih hecho' hrest (SetLiveForecast st lf)]
        have hkne2 : liveForecastKey vid ≠ liveForecastKey lf.venueInfo.venueID := by
          rw [hid]; exact hkeyne
        exact kvGet_kvSet_ne st.kv (liveForecastKey lf.venueInfo.venueID)
          (liveForecastKey vid) (Blob.liveBlob lf) hkne2

/-- C2: Live-forecast cache invariant. After fetchAndCacheLiveForecasts
processes a venue ID whose provider fetch returned a result, the cache holds a
live-forecast entry for that ID iff the result had status "OK" and
venue_live_busyness_available true; any other fetched outcome leaves no entry
(a pre-existing one is deleted, not left stale). The hypothesis hecho states
the provider contract that a returned live forecast echoes the queried venue
ID in venue_info.venue_id (SetLiveForecast keys the cache by that echoed ID).
Both the Orchestrator's post-upsert fetch (RefreshVenuesData, step 4) and the
Live-Forecast Refresher (RefreshCachedLiveForecasts,
RefreshLiveForecastsForAllVenues) invoke exactly this function on their ID
lists, so the rule applies to both call sites. -/
theorem live_cache_invariant (api : BestTimeModel) (st : Store)
    (ids : List String) (vid : String) (lf : LiveForecastResponse)
    (hmem : vid ∈ ids)
    (hfetch : api.liveForecast vid = Except.ok lf)
    (hecho : ∀ id2 ∈ ids, ∀ lf2, api.liveForecast id2 = Except.ok lf2 →
      lf2.venueInfo.venueID = id2) :
    kvGet (fetchAndCacheLiveForecasts api st ids).kv (liveForecastKey vid) =
      (if lf.status = "OK" ∧ lf.analysis.venueLiveBusynessAvailable = true
       then some (Blob.liveBlob lf) else none) := by
  induction ids generalizing st with
  | nil => simp at hmem
  | cons id0 rest ih =>
    have hecho' : ∀ id2 ∈ rest, ∀ lf2, api.liveForecast id2 = Except.ok lf2 →
        lf2.venueInfo.venueID = id2 :=
      fun id2 h2 => hecho id2 (List.mem_cons_of_mem id0 h2)
    by_cases hr : vid ∈ rest
    · exact ih (liveFetchStep api st id0) hr hecho'
    · have hvid : vid = id0 := by
        rcases List.mem_cons.mp hmem with h | h
        · exact h
        · exact absurd h hr
      subst hvid
      show kvGet (fetchAndCacheLiveForecasts api (liveFetchStep api st vid) rest).kv _ = _
      by_cases hc : lf.status = "OK" ∧ lf.analysis.venueLiveBusynessAvailable = true
      · have hcond : ¬(lf.status ≠ "OK" ∨ lf.analysis.venueLiveBusynessAvailable = false) := by
          simp [hc.1, hc.2]
        rw [show liveFetchStep api st vid = SetLiveForecast st lf by
          simp [liveFetchStep, hfetch, hcond]]
        rw [fetch_preserves_other_key api rest vid hecho' hr (SetLiveForecast st lf)]
        have hid : lf.venueInfo.venueID = vid :=
          hecho vid (List.mem_cons_self vid rest) lf hfetch
        simp [SetLiveForecast, hid, kvGet_kvSet_self, hc]
      · have hcond : lf.status ≠ "OK" ∨ lf.analysis.venueLiveBusynessAvailable = false := by
          rcases Decidable.not_and_iff_or_not.mp hc with h | h
          · exact Or.inl h
          · exact Or.inr (by simpa using h)
        rw [show liveFetchStep api st vid = DeleteLiveForecast st vid by
          simp [liveFetchStep, hfetch, hcond]]
        rw [fetch_preserves_other_key api rest vid hecho' hr (DeleteLiveForecast st vid)]
        simp [DeleteLiveForecast, kvGet_kvDel_self, hc]

/-- Concrete live forecast with status OK and live busyness available, echoed
for venue ID v. -/
def c2LfOK : LiveForecastResponse :=
  { analysis := { venueForecastedBusyness := 10, venueLiveBusyness := 42
                  venueLiveBusynessAvailable := true
                  venueForecastBusynessAvailable := true
                  venueLiveForecastedDelta := 0 }
    status := "OK"
    venueInfo := { venueCurrentGMTTime := "", venueCurrentLocalTime := ""
                   venueID := "v", venueName := "V", venueTimezone := ""
                   venueDwellTimeMin := 0, venueDwellTimeMax := 0
                   venueDwellTimeAvg := 0 } }

/-- Concrete live forecast with status OK but live busyness unavailable,
echoed for venue ID w. -/
def c2LfBad : LiveForecastResponse :=
  { analysis := { venueForecastedBusyness := 10, venueLiveBusyness := 0
                  venueLiveBusynessAvailable := false
                  venueForecastBusynessAvailable := true
                  venueLiveForecastedDelta := 0 }
    status := "OK"
    venueInfo := { venueCurrentGMTTime := "", venueCurrentLocalTime := ""
                   venueID := "w", venueName := "W", venueTimezone := ""
                   venueDwellTimeMin := 0, venueDwellTimeMax := 0
                   venueDwellTimeAvg := 0 } }

/-- Concrete provider: live forecasts for v (cacheable) and w (unavailable). -/
def c2Api : BestTimeModel :=
  { searchProgress := fun _ _ => Except.error "unused"
    liveForecast := fun id =>
      if id = "v" then Except.ok c2LfOK
      else if id = "w" then Except.ok c2LfBad
      else Except.error "down"
    venueFilter := Except.error "unused" }

/-- Store holding a stale live-forecast entry for w before the refresh. -/
def c2Store : Store :=
  Store.mk [] [("live_forecast_v1:w", Blob.liveBlob c2LfBad)]

theorem c2_echo : ∀ id2 ∈ ["v", "w"], ∀ lf2,
    c2Api.liveForecast id2 = Except.ok lf2 → lf2.venueInfo.venueID = id2 := by
  intro id2 h2 lf2 hl
  rcases List.mem_cons.mp h2 with h | h
  · subst h
    simp [c2Api] at hl
    rw [← hl]
    rfl
  · rcases List.mem_cons.mp h with h | h
    · subst h
      simp [c2Api] at hl
      rw [← hl]
      rfl
    · simp at h

/-- Witness for live_cache_invariant: refreshing the IDs [v, w] caches v's OK
and available forecast and deletes w's stale entry because its live busyness
was unavailable. -/
theorem live_cache_invariant_witness :
    kvGet (fetchAndCacheLiveForecasts c2Api c2Store ["v", "w"]).kv
        (liveForecastKey "v") = some (Blob.liveBlob c2LfOK) ∧
    kvGet (fetchAndCacheLiveForecasts c2Api c2Store ["v", "w"]).kv
        (liveForecastKey "w") = none := by
  constructor
  · have h := live_cache_invariant c2Api c2Store ["v", "w"] "v" c2LfOK
      (by simp) (by rfl) c2_echo
    rw [h]
    simp [c2LfOK]
  · have h := live_cache_invariant c2Api c2Store ["v", "w"] "w" c2LfBad
      (by simp) (by rfl) c2_echo
    rw [h]
    simp [c2LfBad]

/-! Poll-loop trace lemmas. -/

theorem pollAttempts_cons_poll (k : Nat) (tr : List PollEvent) :
    pollAttempts (PollEvent.pollCall k :: tr) = k :: pollAttempts tr := by
  simp [pollAttempts]

theorem pollAttempts_cons_sleep (s : Nat) (tr : List PollEvent) :
    pollAttempts (PollEvent.sleep s :: tr) = pollAttempts tr := by
  simp [pollAttempts]

theorem sleepSeconds_cons_poll (k : Nat) (tr : List PollEvent) :
    sleepSeconds (PollEvent.pollCall k :: tr) = sleepSeconds tr := by
  simp [sleepSeconds]

theorem sleepSeconds_cons_sleep (s : Nat) (tr : List PollEvent) :
    sleepSeconds (PollEvent.sleep s :: tr) = s :: sleepSeconds tr := by
  simp [sleepSeconds]

theorem pollFrom_spec (poll : Nat → Except String SearchProgressResponse) :
    ∀ rem i, ∃ m, m ≤ rem ∧
      pollAttempts (pollFrom poll i rem).2 = List.range' (i + 1) m ∧
      (sleepSeconds (pollFrom poll i rem).2 =
          (List.range' (i + 1) (m - 1)).map waitBeforePolling ∨
       sleepSeconds (pollFrom poll i rem).2 =
          (List.range' (i + 1) m).map waitBeforePolling) := by
  intro rem
  induction rem with
  | zero =>
    intro i
    exact ⟨0, Nat.le_refl 0, by simp [pollFrom, pollAttempts],
      Or.inl (by simp [pollFrom, sleepSeconds])⟩
  | succ rem ih =>
    intro i
    cases hp : poll i with
    | error e =>
      refine ⟨1, by omega, ?_, Or.inl ?_⟩
      · simp [pollFrom, hp, pollAttempts, List.range'_succ]
      · simp [pollFrom, hp, sleepSeconds]
    | ok resp =>
      cases hf : resp.jobFinished with
      | true =>
        refine ⟨1, by omega, ?_, Or.inl ?_⟩
        · simp [pollFrom, hp, hf, pollAttempts, List.range'_succ]
        · simp [pollFrom, hp, hf, sleepSeconds]
      | false =>
        obtain ⟨m, hm, ha, hs⟩ := ih (i + 1)
        refine ⟨m + 1, by omega, ?_, ?_⟩
        · simp only [pollFrom, hp, hf, Bool.false_eq_true, if_false]
          rw [pollAttempts_cons_poll, pollAttempts_cons_sleep, ha, List.range'_succ]
        · rcases hs with hs | hs
          · cases m with
            | zero =>
              refine Or.inr ?_
              simp only [pollFrom, hp, hf, Bool.false_eq_true, if_false]
              rw [sleepSeconds_cons_poll, sleepSeconds_cons_sleep, hs]
              simp [List.range'_succ]
            | succ m0 =>
              refine Or.inl ?_
              simp only [pollFrom, hp, hf, Bool.false_eq_true, if_false]
              rw [sleepSeconds_cons_poll, sleepSeconds_cons_sleep, hs]
              simp only [Nat.add_sub_cancel, Nat.succ_sub_one]
              rw [List.range'_succ]
              simp
          · refine Or.inr ?_
            simp only [pollFrom, hp, hf, Bool.false_eq_true, if_false]
            rw [sleepSeconds_cons_poll, sleepSeconds_cons_sleep, hs, List.range'_succ]
            simp

/-- Concrete provider answer: a successful poll whose job is not finished. -/
def c5Unfinished : SearchProgressResponse :=
  { countTotal := 0, countCompleted := 0, countForecast := 0, countLive := 0
    countFailed := 0, jobFinished := false, collectionID := "c", jobID := "j"
    status := "OK", venues := [], venuesN := 0 }

/-- C5: Polling backoff growth and bound. In every poll-to-completion of one
job handle, the GetVenueSearchProgress calls carry consecutive attempt numbers
1..m with m at most maxRetries = 5 (no sixth poll call), and the sleeps
between them are waitBeforePolling 1, 2, ... = 15s, 30s, 45s, 60s, ... —
the wait before retry attempt k+1 is the base interval times k. With a
provider that never finishes, the full trace is five polls with sleeps of
15, 30, 45, 60 seconds before attempts 2-5 (and a final 75-second sleep after
the fifth unsuccessful attempt, after which polling stops). -/
theorem polling_backoff_bound :
    (∀ poll : Nat → Except String SearchProgressResponse,
      ∃ m, m ≤ maxRetries ∧
        pollAttempts (pollHandle poll).2 = List.range' 1 m ∧
        (sleepSeconds (pollHandle poll).2 =
            (List.range' 1 (m - 1)).map waitBeforePolling ∨
         sleepSeconds (pollHandle poll).2 =
            (List.range' 1 m).map waitBeforePolling)) ∧
    pollHandle (fun _ => Except.ok c5Unfinished) =
      (none, [PollEvent.pollCall 1, PollEvent.sleep 15, PollEvent.pollCall 2,
        PollEvent.sleep 30, PollEvent.pollCall 3, PollEvent.sleep 45,
        PollEvent.pollCall 4, PollEvent.sleep 60, PollEvent.pollCall 5,
        PollEvent.sleep 75]) := by
  constructor
  · intro poll
    simpa [pollHandle] using pollFrom_spec poll maxRetries 0
  · decide

theorem pollFrom_error_trace (poll : Nat → Except String SearchProgressResponse)
    (j : Nat) (herr : ∃ e, poll j = Except.error e) :
    ∀ rem i, i ≤ j → j < i + rem →
    (∀ k, i ≤ k → k < j → ∃ r, poll k = Except.ok r ∧ r.jobFinished = false) →
    (pollFrom poll i rem).1 = none ∧
    pollAttempts (pollFrom poll i rem).2 = List.range' (i + 1) (j - i + 1) := by
  intro rem
  induction rem with
  | zero =>
    intro i hij hlt
    omega
  | succ rem ih =>
    intro i hij hlt hpre
    by_cases hieq : i = j
    · subst hieq
      obtain ⟨e, he⟩ := herr
      constructor
      · simp [pollFrom, he]
      · simp [pollFrom, he, pollAttempts, List.range'_succ]
    · have hilt : i < j := lt_of_le_of_ne hij hieq
      obtain ⟨r, hr, hrf⟩ := hpre i (Nat.le_refl i) hilt
      have hrec := ih (i + 1) (by omega) (by omega)
        (fun k hk1 hk2 => hpre k (by omega) hk2)
      constructor
      · simp only [pollFrom, hr, hrf, Bool.false_eq_true, if_false]
        exact hrec.1
      · simp only [pollFrom, hr, hrf, Bool.false_eq_true, if_false]
        have hn : j - i + 1 = (j - (i + 1) + 1) + 1 := by omega
        rw [hn, List.range'_succ, pollAttempts_cons_poll, pollAttempts_cons_sleep,
          hrec.2]

theorem pollFrom_unfinished (poll : Nat → Except String SearchProgressResponse) :
    ∀ rem i,
    (∀ k, i ≤ k → k < i + rem → ∃ r, poll k = Except.ok r ∧ r.jobFinished = false) →
    (pollFrom poll i rem).1 = none := by
  intro rem
  induction rem with
  | zero => intro i _; simp [pollFrom]
  | succ rem ih =>
    intro i hpre
    obtain ⟨r, hr, hrf⟩ := hpre i (Nat.le_refl i) (by omega)
    simp only [pollFrom, hr, hrf, Bool.false_eq_true, if_false]
    exact ih (i + 1) (fun k hk1 hk2 => hpre k (by omega) (by omega))

theorem processJobHandles_skip (api : BestTimeModel) (st : Store)
    (h : jobHandle) (xs ys : List jobHandle)
    (hskip : (pollHandle (api.searchProgress h)).1 = none) :
    processJobHandles api st (xs ++ h :: ys) = processJobHandles api st (xs ++ ys) := by
  unfold processJobHandles
  rw [List.foldl_append, List.foldl_append, List.foldl_cons,
    show handleStep api (xs.foldl (handleStep api) (initialRunState st)) h =
        xs.foldl (handleStep api) (initialRunState st) by
      simp [handleStep, hskip]]

/-- C6: Transport errors abort retries but never the run. When pollProgress
for a handle fails with a transport error on attempt j+1 (earlier attempts
having returned unfinished), no further poll attempts are made for that handle
(the poll calls are exactly attempts 1..j+1) and the handle yields no finished
result; a handle still unfinished after all maxRetries attempts likewise
yields none; a handle that yields no finished result is skipped by
processJobHandles, so its venues contribute nothing while the remaining
handles are processed unchanged; and RefreshVenuesData returns no error. -/
theorem transport_error_aborts_retries (api : BestTimeModel) (st : Store)
    (h : jobHandle) (xs ys : List jobHandle) :
    (∀ j, j < maxRetries → (∃ e, api.searchProgress h j = Except.error e) →
      (∀ k, k < j → ∃ r, api.searchProgress h k = Except.ok r ∧
        r.jobFinished = false) →
      (pollHandle (api.searchProgress h)).1 = none ∧
      pollAttempts (pollHandle (api.searchProgress h)).2 = List.range' 1 (j + 1)) ∧
    ((∀ k, k < maxRetries → ∃ r, api.searchProgress h k = Except.ok r ∧
        r.jobFinished = false) →
      (pollHandle (api.searchProgress h)).1 = none) ∧
    ((pollHandle (api.searchProgress h)).1 = none →
      processJobHandles api st (xs ++ h :: ys) = processJobHandles api st (xs ++ ys)) ∧
    (RefreshVenuesData api st (xs ++ h :: ys)).1 = none := by
  refine ⟨?_, ?_, ?_, ?_⟩
  · intro j hj herr hpre
    have hres := pollFrom_error_trace (api.searchProgress h) j herr maxRetries 0
      (by omega) (by omega) (fun k _ hk2 => hpre k hk2)
    simpa [pollHandle] using hres
  · intro hpre
    exact pollFrom_unfinished (api.searchProgress h) maxRetries 0
      (fun k _ hk2 => hpre k (by omega))
  · intro hskip
    exact processJobHandles_skip api st h xs ys hskip
  · by_cases hl : (xs ++ h :: ys).length = 0
    · simp [RefreshVenuesData, hl]
    · simp [RefreshVenuesData, hl]

/-- Concrete provider whose poll fails with a transport error on every
attempt. -/
def c6Api : BestTimeModel :=
  { searchProgress := fun _ _ => Except.error "connection reset"
    liveForecast := fun _ => Except.error "unused"
    venueFilter := Except.error "unused" }

/-- Witness for transport_error_aborts_retries: a handle whose first poll
errors is polled exactly once, skipped, and the run reports no error. -/
theorem transport_error_aborts_retries_witness :
    (pollHandle (c6Api.searchProgress (jobHandle.mk "j" "c"))).1 = none ∧
    pollAttempts (pollHandle (c6Api.searchProgress (jobHandle.mk "j" "c"))).2 =
      List.range' 1 1 ∧
    processJobHandles c6Api (Store.mk [] []) ([] ++ jobHandle.mk "j" "c" :: []) =
      processJobHandles c6Api (Store.mk [] []) ([] ++ []) ∧
    (RefreshVenuesData c6Api (Store.mk [] []) ([] ++ jobHandle.mk "j" "c" :: [])).1 = none := by
  have t := transport_error_aborts_retries c6Api (Store.mk [] [])
    (jobHandle.mk "j" "c") [] []
  have t1 := t.1 0 (by decide) ⟨"connection reset", rfl⟩
    (fun k hk => absurd hk (Nat.not_lt_zero k))
  exact ⟨t1.1, t1.2, t.2.2.1 t1.1, t.2.2.2⟩

/-! Dedup invariants of the discovery pipelines. -/

/-- Invariant of the processJobHandles dedup loop: every upserted venue has
its ID and name marked seen, the upserted venues are pairwise distinct in both
ID and name, and the unique-ID output lists exactly the upserted IDs in
order. -/
def dedupInv (s : RunState) : Prop :=
  (∀ v ∈ s.upserted, v.venueID ∈ s.seenIDs ∧ v.venueName ∈ s.seenNames) ∧
  s.upserted.Pairwise (fun a b => a.venueID ≠ b.venueID ∧ a.venueName ≠ b.venueName) ∧
  s.uniqueIDs = s.upserted.map Venue.venueID

theorem processVenues_inv (vs : List Venue) :
    ∀ s, dedupInv s → dedupInv (processVenues s vs) := by
  induction vs with
  | nil => intro s h; exact h
  | cons v vs ih =>
    intro s hinv
    by_cases hid : v.venueID ∈ s.seenIDs
    · simpa [processVenues, hid] using ih s hinv
    · by_cases hname : v.venueName ∈ s.seenNames
      · simpa [processVenues, hid, hname] using ih s hinv
      · rw [show processVenues s (v :: vs) = processVenues
            { seenIDs := v.venueID :: s.seenIDs
              seenNames := v.venueName :: s.seenNames
              uniqueIDs := s.uniqueIDs ++ [v.venueID]
              upserted := s.upserted ++ [v]
              store := UpsertVenue s.store v } vs by
          simp [processVenues, hid, hname]]
        apply ih
        obtain ⟨hseen, hpw, hids⟩ := hinv
        refine ⟨?_, ?_, ?_⟩
        · intro w hw
          rcases List.mem_append.mp hw with hw | hw
          · exact ⟨List.mem_cons_of_mem _ (hseen w hw).1,
              List.mem_cons_of_mem _ (hseen w hw).2⟩
          · rw [List.mem_singleton.mp hw]
            exact ⟨List.mem_cons_self _ _, List.mem_cons_self _ _⟩
        · rw [List.pairwise_append]
          refine ⟨hpw, List.pairwise_singleton _ _, ?_⟩
          intro a ha b hb
          rw [List.mem_singleton.mp hb]
          constructor
          · intro heq
            exact hid (heq ▸ (hseen a ha).1)
          · intro heq
            exact hname (heq ▸ (hseen a ha).2)
        · simp [hids]

theorem processJobHandles_inv (api : BestTimeModel) (st : Store)
    (handles : List jobHandle) : dedupInv (processJobHandles api st handles) := by
  unfold processJobHandles
  have hfold : ∀ hs : List jobHandle, ∀ s, dedupInv s →
      dedupInv (hs.foldl (handleStep api) s) := by
    intro hs
    induction hs with
    | nil => intro s h; exact h
    | cons h0 hs ih =>
      intro s hinv
      rw [List.foldl_cons]
      apply ih
      unfold handleStep
      cases (pollHandle (api.searchProgress h0)).1 with
      | none => exact hinv
      | some resp => exact processVenues_inv resp.venues s hinv
  exact hfold handles (initialRunState st)
    ⟨by simp [initialRunState], by simp [initialRunState], by simp [initialRunState]⟩

/-- Scenario venue of the dedup test: id 1, name X. -/
def c1VenueX : Venue :=
  { forecast := true, processed := true, venueAddress := "a1", venueLat := 1
    venueLon := 2, venueName := "X", venueID := "1"
    venueFootTrafficForecast := none }

/-- Scenario venue of the dedup test: id 1 again, name Y. -/
def c1VenueY : Venue :=
  { forecast := true, processed := true, venueAddress := "a2", venueLat := 3
    venueLon := 4, venueName := "Y", venueID := "1"
    venueFootTrafficForecast := none }

/-- Finished search-progress response returning the given venues. -/
def c1Resp (vs : List Venue) : SearchProgressResponse :=
  { countTotal := vs.length, countCompleted := vs.length, countForecast := 0
    countLive := 0, countFailed := 0, jobFinished := true, collectionID := "c"
    jobID := "j", status := "OK", venues := vs, venuesN := vs.length }

/-- Provider of the dedup scenario: job j1 returns venue (1, X), job j2
returns venue (1, Y), both finished on the first poll. -/
def c1Api : BestTimeModel :=
  { searchProgress := fun h _ =>
      if h.jobID = "j1" then Except.ok (c1Resp [c1VenueX])
      else Except.ok (c1Resp [c1VenueY])
    liveForecast := fun _ => Except.error "unused"
    venueFilter := Except.error "unused" }

/-- C1: Dedup correctness and precedence in the discovery pipeline. Across
the finished jobs of one processJobHandles run, the upserted venues are
pairwise distinct in both venue_id and venue_name (ID checked first, then
name, first occurrence winning) and the unique-ID output lists exactly the
upserted IDs in order; in the two-job scenario where the jobs return
[(id 1, X)] and [(id 1, Y)], exactly the first record is upserted and its ID
appears once in the output. -/
theorem processJobHandles_dedup :
    (∀ (api : BestTimeModel) (st : Store) (handles : List jobHandle),
      (processJobHandles api st handles).upserted.Pairwise
        (fun a b => a.venueID ≠ b.venueID ∧ a.venueName ≠ b.venueName) ∧
      (processJobHandles api st handles).uniqueIDs =
        (processJobHandles api st handles).upserted.map Venue.venueID) ∧
    (processJobHandles c1Api (Store.mk [] [])
      [jobHandle.mk "j1" "c1", jobHandle.mk "j2" "c2"]).upserted = [c1VenueX] ∧
    (processJobHandles c1Api (Store.mk [] [])
      [jobHandle.mk "j1" "c1", jobHandle.mk "j2" "c2"]).uniqueIDs = ["1"] := by
  refine ⟨?_, by decide, by decide⟩
  intro api st handles
  obtain ⟨_, hpw, hids⟩ := processJobHandles_inv api st handles
  exact ⟨hpw, hids⟩

/-- Empty-ID scenario venue with name X. -/
def c4VenueEX : Venue :=
  { forecast := true, processed := true, venueAddress := "a1", venueLat := 1
    venueLon := 2, venueName := "X", venueID := ""
    venueFootTrafficForecast := none }

/-- Empty-ID scenario venue with name Y. -/
def c4VenueEY : Venue :=
  { forecast := true, processed := true, venueAddress := "a2", venueLat := 3
    venueLon := 4, venueName := "Y", venueID := ""
    venueFootTrafficForecast := none }

/-- Empty-ID scenario venue with name X at different coordinates. -/
def c4VenueEX2 : Venue :=
  { forecast := true, processed := true, venueAddress := "a3", venueLat := 5
    venueLon := 6, venueName := "X", venueID := ""
    venueFootTrafficForecast := none }

/-- Scenario venue with neither an ID nor a name. -/
def c4VenueNone : Venue :=
  { forecast := true, processed := true, venueAddress := "a4", venueLat := 7
    venueLon := 8, venueName := "", venueID := ""
    venueFootTrafficForecast := none }

/-- Provider of the empty-ID scenario: one finished job returning the two
empty-ID venues (X, then Y). -/
def c4Api : BestTimeModel :=
  { searchProgress := fun _ _ => Except.ok (c1Resp [c4VenueEX, c4VenueEY])
    liveForecast := fun _ => Except.error "unused"
    venueFilter := Except.error "unused" }

/-- Counterexample to C4: in the search/poll flow (processJobHandles) the
empty venue_id is used as a dedup key like any other value, so of two
empty-ID records with distinct non-empty names (X then Y) only the first is
upserted — the second is skipped as a duplicate ID, contradicting the claim
that venue_name becomes the dedup key in this flow and both are upserted. -/
theorem empty_id_dedup_counterexample :
    (processJobHandles c4Api (Store.mk [] [])
      [jobHandle.mk "j" "c"]).upserted = [c4VenueEX] := by
  decide

/-- Invariant of the filterVenuesLoop dedup loop: every upserted venue with a
non-empty ID has it marked seen (likewise for names), and the upserted venues
are pairwise distinct in non-empty IDs and non-empty names. -/
def filterInv (s : RunState) : Prop :=
  (∀ v ∈ s.upserted, (v.venueID ≠ "" → v.venueID ∈ s.seenIDs) ∧
    (v.venueName ≠ "" → v.venueName ∈ s.seenNames)) ∧
  s.upserted.Pairwise (fun a b => (a.venueID ≠ "" → a.venueID ≠ b.venueID) ∧
    (a.venueName ≠ "" → a.venueName ≠ b.venueName))

theorem filterVenuesLoop_inv (vs : List Venue) :
    ∀ s, filterInv s → filterInv (filterVenuesLoop s vs) := by
  induction vs with
  | nil => intro s h; exact h
  | cons vf vs ih =>
    intro s hinv
    by_cases hboth : vf.venueID = "" ∧ vf.venueName = ""
    · simpa [filterVenuesLoop, hboth] using ih s hinv
    · by_cases hid : vf.venueID ≠ "" ∧ vf.venueID ∈ s.seenIDs
      · rw [show filterVenuesLoop s (vf :: vs) = filterVenuesLoop s vs by
          simp [filterVenuesLoop, hboth, hid]]
        exact ih s hinv
      · by_cases hname : vf.venueName ≠ "" ∧ vf.venueName ∈ s.seenNames
        · rw [show filterVenuesLoop s (vf :: vs) = filterVenuesLoop s vs by
            simp only [filterVenuesLoop]
            rw [if_neg hboth, if_neg hid, if_pos hname]]
          exact ih s hinv
        · rw [show filterVenuesLoop s (vf :: vs) = filterVenuesLoop
              { seenIDs := if (mapVenueFilterVenueToVenue vf).venueID ≠ "" then
                  (mapVenueFilterVenueToVenue vf).venueID :: s.seenIDs else s.seenIDs
                seenNames := if (mapVenueFilterVenueToVenue vf).venueName ≠ "" then
                  (mapVenueFilterVenueToVenue vf).venueName :: s.seenNames else s.seenNames
                uniqueIDs := if (mapVenueFilterVenueToVenue vf).venueID ≠ "" then
                  s.uniqueIDs ++ [(mapVenueFilterVenueToVenue vf).venueID] else s.uniqueIDs
                upserted := s.upserted ++ [mapVenueFilterVenueToVenue vf]
                store := UpsertVenue s.store (mapVenueFilterVenueToVenue vf) } vs by
            simp only [filterVenuesLoop]
            rw [if_neg hboth, if_neg hid, if_neg hname]]
          apply ih
          obtain ⟨hseen, hpw⟩ := hinv
          have hvid : (mapVenueFilterVenueToVenue vf).venueID = vf.venueID := rfl
          have hvname : (mapVenueFilterVenueToVenue vf).venueName = vf.venueName := rfl
          constructor
          · intro w hw
            rcases List.mem_append.mp hw with hw | hw
            · refine ⟨?_, ?_⟩
              · intro hw1
                have hmem := (hseen w hw).1 hw1
                dsimp only
                split
                · exact List.mem_cons_of_mem _ hmem
                · exact hmem
              · intro hw2
                have hmem := (hseen w hw).2 hw2
                dsimp only
                split
                · exact List.mem_cons_of_mem _ hmem
                · exact hmem
            · rw [List.mem_singleton.mp hw]
              refine ⟨?_, ?_⟩
              · intro h1
                dsimp only
                rw [if_pos h1]
                exact List.mem_cons_self _ _
              · intro h2
                dsimp only
                rw [if_pos h2]
                exact List.mem_cons_self _ _
          · rw [List.pairwise_append]
            refine ⟨hpw, List.pairwise_singleton _ _, ?_⟩
            intro a ha b hb
            rw [List.mem_singleton.mp hb]
            constructor
            · intro ha1 heq
              have hmem := (hseen a ha).1 ha1
              rw [heq, hvid] at hmem
              have hne : vf.venueID ≠ "" := by
                rw [← hvid, ← heq]
                exact ha1
              exact hid ⟨hne, hmem⟩
            · intro ha2 heq
              have hmem := (hseen a ha).2 ha2
              rw [heq, hvname] at hmem
              have hne : vf.venueName ≠ "" := by
                rw [← hvname, ← heq]
                exact ha2
              exact hname ⟨hne, hmem⟩

/-- Provider returning a filtered search with the two distinct-name empty-ID
venues. -/
def c4ApiF1 : BestTimeModel :=
  { searchProgress := fun _ _ => Except.error "unused"
    liveForecast := fun _ => Except.error "unused"
    venueFilter := Except.ok
      { status := "OK", venues := [c4VenueEX, c4VenueEY], venuesN := 2 } }

/-- C4 as amended: the empty-ID name fallback holds in the filtered discovery
flow only. In RefreshVenuesDataByVenuesFilter, a record with an empty
venue_id is deduplicated purely by venue_name: across every run the upserted
venues are pairwise distinct in non-empty IDs and non-empty names (so two
empty-ID records never collide on ID), two empty-ID records with distinct
non-empty names are both upserted, two empty-ID records with the same name
collapse to the first, and a record with neither an ID nor a name is skipped.
In the search/poll flow (processJobHandles) the fallback does not hold: the
empty ID is itself the dedup key, so the second empty-ID record is skipped as
a duplicate ID even though its name differs. -/
theorem empty_id_dedup_amended :
    (∀ (st : Store) (vs : List Venue),
      (filterVenuesLoop (initialRunState st) vs).upserted.Pairwise
        (fun a b => (a.venueID ≠ "" → a.venueID ≠ b.venueID) ∧
          (a.venueName ≠ "" → a.venueName ≠ b.venueName))) ∧
    (filterVenuesLoop (initialRunState (Store.mk [] []))
      [c4VenueEX, c4VenueEY]).upserted.map Venue.venueName = ["X", "Y"] ∧
    (filterVenuesLoop (initialRunState (Store.mk [] []))
      [c4VenueEX, c4VenueEX2]).upserted.map Venue.venueName = ["X"] ∧
    (filterVenuesLoop (initialRunState (Store.mk [] []))
      [c4VenueNone]).upserted = [] ∧
    (RefreshVenuesDataByVenuesFilter c4ApiF1 (Store.mk [] [])).2 =
      (filterVenuesLoop (initialRunState (Store.mk [] []))
        [c4VenueEX, c4VenueEY]).store ∧
    (processJobHandles c4Api (Store.mk [] [])
      [jobHandle.mk "j" "c"]).upserted.map Venue.venueName = ["X"] := by
  refine ⟨?_, by decide, by decide, by decide, by decide, by decide⟩
  intro st vs
  exact (filterVenuesLoop_inv vs (initialRunState st)
    ⟨by simp [initialRunState], by simp [initialRunState]⟩).2

/-! Stable-sort lemmas for the serving-layer merge. -/

theorem mem_stableInsert (less : α → α → Bool) (a x : α) (l : List α) :
    x ∈ stableInsert less a l ↔ x = a ∨ x ∈ l := by
  induction l with
  | nil => simp [stableInsert]
  | cons b l ih =>
    by_cases hba : less b a = true
    · rw [show stableInsert less a (b :: l) = b :: stableInsert less a l by
        simp [stableInsert, hba]]
      simp only [List.mem_cons, ih]
      tauto
    · rw [show stableInsert less a (b :: l) = a :: b :: l by
        simp [stableInsert, hba]]
      simp only [List.mem_cons]

theorem pairwise_stableInsert (less : α → α → Bool)
    (hasym : ∀ x y, less x y = true → less y x = false)
    (hneg : ∀ x y z, less z y = false → less y x = false → less z x = false)
    (a : α) (l : List α) (hl : l.Pairwise (fun x y => less y x = false)) :
    (stableInsert less a l).Pairwise (fun x y => less y x = false) := by
  induction l with
  | nil => simp [stableInsert]
  | cons b l ih =>
    rw [List.pairwise_cons] at hl
    obtain ⟨hb, hlt⟩ := hl
    by_cases hba : less b a = true
    · rw [show stableInsert less a (b :: l) = b :: stableInsert less a l by
        simp [stableInsert, hba]]
      rw [List.pairwise_cons]
      refine ⟨?_, ih hlt⟩
      intro x hx
      rcases (mem_stableInsert less a x l).mp hx with hx | hx
      · exact hx ▸ hasym b a hba
      · exact hb x hx
    · have hba' : less b a = false := by
        cases h : less b a
        · rfl
        · exact absurd h hba
      rw [show stableInsert less a (b :: l) = a :: b :: l by
        simp [stableInsert, hba']]
      rw [List.pairwise_cons]
      refine ⟨?_, List.pairwise_cons.mpr ⟨hb, hlt⟩⟩
      intro x hx
      rcases List.mem_cons.mp hx with hx | hx
      · exact hx ▸ hba'
      · exact hneg a b x (hb x hx) hba'

theorem pairwise_sliceStable (less : α → α → Bool)
    (hasym : ∀ x y, less x y = true → less y x = false)
    (hneg : ∀ x y z, less z y = false → less y x = false → less z x = false)
    (l : List α) :
    (sliceStable less l).Pairwise (fun x y => less y x = false) := by
  induction l with
  | nil => simp [sliceStable]
  | cons a l ih => exact pairwise_stableInsert less hasym hneg a _ ih

theorem liveLess_asymm (x y : VenueWithLive) :
    liveLess x y = true → liveLess y x = false := by
  unfold liveLess
  cases hx : x.live <;> cases hy : y.live <;> simp
  omega

theorem liveLess_negtrans (x y z : VenueWithLive) :
    liveLess z y = false → liveLess y x = false → liveLess z x = false := by
  unfold liveLess
  cases hx : x.live <;> cases hy : y.live <;> cases hz : z.live <;> simp
  omega

theorem filter_stableInsert_of_neg (less : α → α → Bool) (p : α → Bool)
    (a : α) (hpa : p a = false) (l : List α) :
    (stableInsert less a l).filter p = l.filter p := by
  induction l with
  | nil => simp [stableInsert, hpa]
  | cons b l ih =>
    by_cases hba : less b a = true
    · simp only [stableInsert, hba, if_true, List.filter_cons, ih]
    · simp only [stableInsert, hba, if_false, List.filter_cons, hpa, Bool.false_eq_true]

theorem filter_isNone_stableInsert_none (a : VenueWithLive) (ha : a.live = none)
    (l : List VenueWithLive) :
    (stableInsert liveLess a l).filter (fun x => x.live.isNone) =
      a :: l.filter (fun x => x.live.isNone) := by
  induction l with
  | nil => simp [stableInsert, ha]
  | cons b l ih =>
    cases hb : b.live with
    | some lf =>
      have hba : liveLess b a = true := by simp [liveLess, hb, ha]
      rw [show stableInsert liveLess a (b :: l) = b :: stableInsert liveLess a l by
        simp [stableInsert, hba]]
      simp [List.filter_cons, hb, ih]
    | none =>
      have hba : liveLess b a = false := by simp [liveLess, hb, ha]
      rw [show stableInsert liveLess a (b :: l) = a :: b :: l by
        simp [stableInsert, hba]]
      simp [List.filter_cons, ha, hb]

theorem filter_isNone_sliceStable (l : List VenueWithLive) :
    (sliceStable liveLess l).filter (fun x => x.live.isNone) =
      l.filter (fun x => x.live.isNone) := by
  induction l with
  | nil => rfl
  | cons a l ih =>
    cases ha : a.live with
    | some lf =>
      have hpa : (fun x : VenueWithLive => x.live.isNone) a = false := by simp [ha]
      rw [show sliceStable liveLess (a :: l) =
          stableInsert liveLess a (sliceStable liveLess l) from rfl]
      rw [filter_stableInsert_of_neg liveLess _ a hpa, ih, List.filter_cons]
      simp [ha]
    | none =>
      rw [show sliceStable liveLess (a :: l) =
          stableInsert liveLess a (sliceStable liveLess l) from rfl]
      rw [filter_isNone_stableInsert_none a ha, ih, List.filter_cons]
      simp [ha]

theorem mergeLive_sorted (st : Store) (venues : List Venue) :
    (mergeLive st venues).Pairwise (fun a b => liveLess b a = false) :=
  pairwise_sliceStable liveLess liveLess_asymm liveLess_negtrans _

/-- Scenario live forecast with the given echoed venue ID and live
busyness. -/
def c3Lf (id : String) (busy : Int) : LiveForecastResponse :=
  { analysis := { venueForecastedBusyness := 0, venueLiveBusyness := busy
                  venueLiveBusynessAvailable := true
                  venueForecastBusynessAvailable := false
                  venueLiveForecastedDelta := 0 }
    status := "OK"
    venueInfo := { venueCurrentGMTTime := "", venueCurrentLocalTime := ""
                   venueID := id, venueName := id, venueTimezone := ""
                   venueDwellTimeMin := 0, venueDwellTimeMax := 0
                   venueDwellTimeAvg := 0 } }

/-- Scenario venue with the given ID used as its name. -/
def c3Venue (id : String) : Venue :=
  { forecast := true, processed := true, venueAddress := "", venueLat := 0
    venueLon := 0, venueName := id, venueID := id
    venueFootTrafficForecast := none }

/-- Store caching live forecasts for venues B (busyness 30) and C (busyness
80) only. -/
def c3Store : Store :=
  Store.mk []
    [("live_forecast_v1:B", Blob.liveBlob (c3Lf "B" 30)),
     ("live_forecast_v1:C", Blob.liveBlob (c3Lf "C" 80))]

/-- C3: Serving-layer sort contract. In every merged list produced by
mergeLive, venues with a live entry appear before venues without one; among
venues with live entries the order is by live busyness descending; venues
without live entries keep their original relative order (the filter of
live-less entries equals that of the unsorted merge); and for the input
[A (no live), B (live 30), C (live 80), D (no live)] the output order is
[C, B, A, D]. -/
theorem mergeLive_sort_contract :
    (∀ (st : Store) (venues : List Venue),
      (mergeLive st venues).Pairwise
        (fun a b => b.live.isSome = true → a.live.isSome = true) ∧
      (mergeLive st venues).Pairwise
        (fun a b => ∀ la lb, a.live = some la → b.live = some lb →
          lb.analysis.venueLiveBusyness ≤ la.analysis.venueLiveBusyness) ∧
      (mergeLive st venues).filter (fun x => x.live.isNone) =
        (venues.map (pairWithLive st)).filter (fun x => x.live.isNone)) ∧
    (mergeLive c3Store [c3Venue "A", c3Venue "B", c3Venue "C", c3Venue "D"]).map
      (fun x => x.venue.venueName) = ["C", "B", "A", "D"] := by
  constructor
  · intro st venues
    refine ⟨?_, ?_, filter_isNone_sliceStable _⟩
    · refine (mergeLive_sorted st venues).imp ?_
      intro a b hab
      revert hab
      unfold liveLess
      cases ha : a.live <;> cases hb : b.live <;> simp
    · refine (mergeLive_sorted st venues).imp ?_
      intro a b hab la lb hla hlb
      revert hab
      unfold liveLess
      rw [hla, hlb]
      simp
  · decide

end CsServer
